import Mathlib

/-!
Verification of the agent-execution and workflow-orchestration layer of the
marketing system (files `src/agents/core/enhanced_base_agent.py`,
`src/agents/core/enhanced_orchestrator.py` and the specialist agents).

Python dictionaries are modelled as ordered association lists with unique
keys (`StateDict`), Python values as the inductive `Value`, exceptions as the
`Exn` type, and the fallible / possibly-slow core logic of an agent as a
`CoreBehavior`: for every attempt index it tells whether the core returns a
state within the timeout, raises, or exceeds the timeout.  Wall-clock
timestamps are modelled as integers (seconds); ISO timestamp strings that
only flow through the code unchanged are modelled by those integers.
-/

namespace Marketing

/-- Model of a Python runtime value (the heterogeneous values stored in the
workflow state dictionaries). -/
inductive Value where
  | str (s : String)
  | int (n : Int)
  | rat (q : Rat)
  | bool (b : Bool)
  | vlist (xs : List Value)
  | vdict (xs : List (String × Value))
  | pynone
deriving Inhabited

/-- A Python dict with string keys: ordered association list, unique keys. -/
abbrev StateDict := List (String × Value)

namespace Dict

/-- `d.get(k)` without default: `some` value or `none`. -/
def lookup : StateDict → String → Option Value
  | [], _ => none
  | (k', v) :: rest, k => if k' = k then some v else lookup rest k

/-- `d.get(k, default)`. -/
def pyGet (d : StateDict) (k : String) (default : Value) : Value :=
  (lookup d k).getD default

/-- `{**d, k: v}` at one key: replace in place if present, else append
(Python insertion-order semantics). -/
def insert : StateDict → String → Value → StateDict
  | [], k, v => [(k, v)]
  | (k', v') :: rest, k, v =>
      if k' = k then (k', v) :: rest else (k', v') :: insert rest k v

/-- `list(d.keys())`. -/
def keys (d : StateDict) : List String := d.map Prod.fst

end Dict

/-- Python truthiness of a value (`bool(v)`). -/
def Value.truthy : Value → Bool
  | .str s => !s.isEmpty
  | .int n => n != 0
  | .rat q => q != 0
  | .bool b => b
  | .vlist xs => !xs.isEmpty
  | .vdict xs => !xs.isEmpty
  | .pynone => false

/-- Does the value support Python attribute `.get` (i.e. is it a mapping)? -/
def Value.isMapping : Value → Bool
  | .vdict _ => true
  | _ => false

/-! ### Substring search (model of Python `needle in s`) -/

/-- Boolean list-prefix test on characters. -/
def pfx : List Char → List Char → Bool
  | [], _ => true
  | _ :: _, [] => false
  | a :: as, b :: bs => a = b && pfx as bs

/-- Does `needle` occur as a contiguous substring of the character list? -/
def hasSub (needle : List Char) : List Char → Bool
  | [] => decide (needle = [])
  | c :: cs => pfx needle (c :: cs) || hasSub needle cs

/-- Python `needle in hay` on strings. -/
def pyContains (hay needle : String) : Bool := hasSub needle.data hay.data

theorem pfx_append (n b : List Char) : pfx n (n ++ b) = true := by
  induction n with
  | nil => rfl
  | cons a as ih => simp [pfx, ih]

theorem hasSub_of_pfx {n h : List Char} (hp : pfx n h = true) :
    hasSub n h = true := by
  cases h with
  | nil => cases n with
    | nil => rfl
    | cons a as => simp [pfx] at hp
  | cons c cs => simp [hasSub, hp]

theorem hasSub_append_right {n t : List Char} (s : List Char)
    (h : hasSub n t = true) : hasSub n (s ++ t) = true := by
  induction s with
  | nil => simpa using h
  | cons c cs ih => simp [hasSub, ih]

theorem pfx_extend (t : List Char) :
    ∀ n s, pfx n s = true → pfx n (s ++ t) = true
  | [], _, _ => rfl
  | _ :: _, [], h => by simp [pfx] at h
  | a :: as, b :: bs, h => by
      simp only [pfx, Bool.and_eq_true, decide_eq_true_eq] at h
      simp only [List.cons_append, pfx, Bool.and_eq_true, decide_eq_true_eq]
      exact ⟨h.1, pfx_extend t as bs h.2⟩

theorem hasSub_append_left {n s : List Char} (t : List Char)
    (h : hasSub n s = true) : hasSub n (s ++ t) = true := by
  induction s with
  | nil =>
      cases n with
      | nil => exact hasSub_of_pfx rfl
      | cons a as => simp [hasSub] at h
  | cons c cs ih =>
      simp only [hasSub, Bool.or_eq_true] at h
      simp only [List.cons_append, hasSub, Bool.or_eq_true]
      rcases h with h | h
      · exact Or.inl (pfx_extend t n (c :: cs) h)
      · exact Or.inr (ih h)

theorem hasSub_sandwich (a n b : List Char) :
    hasSub n (a ++ n ++ b) = true := by
  rw [List.append_assoc]
  exact hasSub_append_right a (hasSub_of_pfx (pfx_append n b))

theorem hasSub_trans {n m : List Char} (h : hasSub n m = true) (a b : List Char) :
    hasSub n (a ++ m ++ b) = true := by
  rw [List.append_assoc]
  exact hasSub_append_right a (hasSub_append_left b h)

theorem string_data_append (s t : String) : (s ++ t).data = s.data ++ t.data := rfl

theorem pyContains_trans {needle mid : String} (a b : String)
    (h : pyContains mid needle = true) :
    pyContains (a ++ mid ++ b) needle = true := by
  unfold pyContains at h ⊢
  rw [string_data_append, string_data_append]
  exact hasSub_trans h a.data b.data

/-! ### Model of Python `str()` / `repr()` rendering of values

The orchestrator decides phase success by the substring test
`"error" not in str(phase)`; we therefore need a rendering of values.
Escaping inside string literals is not modelled (no claim depends on it);
dict/list/number layout follows CPython's `repr`. -/

mutual

/-- Python `repr(v)` (what `str` produces for values nested inside
containers). -/
def Value.pyRepr : Value → String
  | .str s => "'" ++ s ++ "'"
  | .int n => toString n
  | .rat q => toString q
  | .bool b => if b then "True" else "False"
  | .vlist xs => "[" ++ reprVList xs ++ "]"
  | .vdict xs => "\x7b" ++ reprVDict xs ++ "\x7d"
  | .pynone => "None"

/-- Comma-separated repr of the elements of a Python list. -/
def reprVList : List Value → String
  | [] => ""
  | [x] => x.pyRepr
  | x :: y :: xs => x.pyRepr ++ ", " ++ reprVList (y :: xs)

/-- Comma-separated repr of the entries of a Python dict. -/
def reprVDict : List (String × Value) → String
  | [] => ""
  | [(k, v)] => "'" ++ k ++ "': " ++ v.pyRepr
  | (k, v) :: e :: xs => "'" ++ k ++ "': " ++ v.pyRepr ++ ", " ++ reprVDict (e :: xs)

end

/-- Python `str(v)` at top level: strings render without quotes, everything
else as `repr`. -/
def Value.pyStr : Value → String
  | .str s => s
  | v => v.pyRepr

/-! ### Agent configuration, metrics and exceptions
(`enhanced_base_agent.py`) -/

/-- `AgentConfig` dataclass with its default values. -/
structure AgentConfig where
  model_name : String := "deepseek-r1-distill-llama-70b"
  temperature : Rat := mkRat 7 10
  max_tokens : Nat := 2000
  timeout : Nat := 30
  retry_count : Nat := 3
  retry_delay : Rat := 1
deriving Repr

/-- `AgentMetrics` dataclass. `last_execution` (a `datetime` in the source)
is modelled as an integer timestamp. -/
structure AgentMetrics where
  execution_time : Rat
  success_rate : Rat
  last_execution : Int
  total_calls : Nat
  error_count : Nat
deriving Repr, DecidableEq

/-- Metrics as initialised in `EnhancedBaseAgent.__init__` (`t0` is the
construction-time `datetime.now()`). -/
def initMetrics (t0 : Int) : AgentMetrics :=
  { execution_time := 0, success_rate := 1, last_execution := t0
    total_calls := 0, error_count := 0 }

/-- A raised Python exception, distinguishing the `TimeoutError` kind raised
by `_execute_with_timeout` from every other exception. -/
inductive Exn where
  | timeoutError (msg : String)
  | error (msg : String)
deriving Repr, DecidableEq

/-- `str(e)` of an exception. -/
def Exn.msg : Exn → String
  | .timeoutError m => m
  | .error m => m

/-- Behaviour of one attempt of an agent's `_execute_core` on a given state:
it either completes within the configured timeout with a result state,
raises an exception, or overruns the timeout (in which case `wouldBe` is the
state it would eventually have produced — `asyncio.wait_for` abandons it). -/
inductive CoreOutcome where
  | ok (result : StateDict)
  | raises (msg : String)
  | overruns (wouldBe : StateDict)

/-- The core logic of an agent, indexed by the 0-based attempt number (so
that retry scenarios such as "fails twice then succeeds" are expressible)
and the input state. -/
def CoreBehavior := Nat → StateDict → CoreOutcome

/-- `EnhancedBaseAgent._execute_with_timeout`: run the core under
`asyncio.wait_for(..., timeout=config.timeout)`; an overrun is converted
into a raised `TimeoutError` and the attempt's would-be output discarded. -/
def execute_with_timeout (cfg : AgentConfig) (out : CoreOutcome) :
    Except Exn StateDict :=
  match out with
  | .ok s => .ok s
  | .raises m => .error (.error m)
  | .overruns _ =>
      .error (.timeoutError
        ("Agent execution timed out after " ++ toString cfg.timeout ++ "s"))

/-- Outcome of `_execute_safe`: final result, number of attempts actually
made, and the list of sleep durations (seconds) between attempts. -/
structure SafeResult where
  result : Except Exn StateDict
  attempts : Nat
  sleeps : List Rat

/-- The retry loop of `_execute_safe`, starting at attempt index `attempt`
with `remaining` attempts left (`remaining = retry_count + 1 - attempt`).
After a failure with further attempts remaining it sleeps
`retry_delay * (attempt + 1)` seconds. -/
def execute_safe_go (cfg : AgentConfig) (core : CoreBehavior) (s : StateDict) :
    Nat → Nat → SafeResult
  | _, 0 => ⟨.error (.error "unreachable"), 0, []⟩
  | attempt, remaining + 1 =>
      match execute_with_timeout cfg (core attempt s) with
      | .ok s' => ⟨.ok s', 1, []⟩
      | .error e =>
          if remaining = 0 then ⟨.error e, 1, []⟩
          else
            let rest := execute_safe_go cfg core s (attempt + 1) remaining
            ⟨rest.result, rest.attempts + 1,
             cfg.retry_delay * (attempt + 1) :: rest.sleeps⟩

/-- `EnhancedBaseAgent._execute_safe`: up to `retry_count + 1` attempts;
exhaustion re-raises the last error. -/
def execute_safe (cfg : AgentConfig) (core : CoreBehavior) (s : StateDict) :
    SafeResult :=
  execute_safe_go cfg core s 0 (cfg.retry_count + 1)

/-- `str.lower()` (character-wise, which is what it does on the ASCII agent
names appearing in this code base). -/
def strLower (s : String) : String := String.mk (s.data.map Char.toLower)

/-- `str.replace(' ', '_')` (the pattern is a single character, so a
character-wise map is exact). -/
def strReplaceSpace (s : String) : String :=
  String.mk (s.data.map (fun c => if c = ' ' then '_' else c))

/-- The error key `f"{self.name.lower().replace(' ', '_')}_error"`. -/
def agentErrKey (name : String) : String :=
  strReplaceSpace (strLower name) ++ "_error"

/-- `EnhancedBaseAgent._handle_error`: return the input state augmented with
an `error` info dict and an agent-specific error key (`ts` is the
`datetime.now().isoformat()` string). -/
def handle_error (name : String) (s : StateDict) (e : Exn) (ts : String) :
    StateDict :=
  Dict.insert
    (Dict.insert s "error"
      (.vdict [("error", .str e.msg), ("agent", .str name),
               ("timestamp", .str ts)]))
    (agentErrKey name) (.str e.msg)

/-- `EnhancedBaseAgent.execute_with_metrics`: increment `total_calls`, run
`_execute_safe`; on success record `execution_time` and `last_execution`;
on terminal failure increment `error_count`, recompute `success_rate` and
return `_handle_error`'s augmented state.  `start`/`finish` model the two
`datetime.now()` readings, `ts` the error timestamp string. -/
def execute_with_metrics (cfg : AgentConfig) (name : String)
    (m : AgentMetrics) (core : CoreBehavior) (s : StateDict)
    (start finish : Int) (ts : String) : StateDict × AgentMetrics :=
  let m1 := { m with total_calls := m.total_calls + 1 }
  match (execute_safe cfg core s).result with
  | .ok result =>
      (result,
       { m1 with execution_time := ((finish - start : Int) : Rat),
                 last_execution := finish })
  | .error e =>
      let m2 := { m1 with error_count := m1.error_count + 1 }
      let m3 := { m2 with success_rate :=
        ((m2.total_calls : Rat) - (m2.error_count : Rat)) / (m2.total_calls : Rat) }
      (handle_error name s e ts, m3)

/-- `EnhancedBaseAgent.get_metrics()` as a `Value`:
`{**asdict(self.metrics), "agent_name": name, "config": asdict(config)}`. -/
def get_metrics (name : String) (cfg : AgentConfig) (m : AgentMetrics) : Value :=
  .vdict [("execution_time", .rat m.execution_time),
          ("success_rate", .rat m.success_rate),
          ("last_execution", .int m.last_execution),
          ("total_calls", .int m.total_calls),
          ("error_count", .int m.error_count),
          ("agent_name", .str name),
          ("config", .vdict [("model_name", .str cfg.model_name),
                             ("temperature", .rat cfg.temperature),
                             ("max_tokens", .int cfg.max_tokens),
                             ("timeout", .int cfg.timeout),
                             ("retry_count", .int cfg.retry_count),
                             ("retry_delay", .rat cfg.retry_delay)])]

/-! ### `TrendAnalysisAgent` (`specialists/trend_analysis.py`)

The external Groq chat-completion capability is modelled as an opaque
function `llm : String → Except String String` from the prompt to either the
raw response text or a raised exception; `clientOK` models whether the
module-level `client` was configured. -/

/-- Keep the characters from the first occurrence of `needle` onwards
(model of `s[s.find(needle):]` when `needle in s`). -/
def fromSubChars (needle : List Char) : List Char → List Char
  | [] => []
  | c :: cs => if pfx needle (c :: cs) then c :: cs else fromSubChars needle cs

/-- Drop everything up to and including the first occurrence of `needle`
(model of `s.split(needle, 1)[1]` when `needle in s`). -/
def afterSubChars (needle : List Char) : List Char → List Char
  | [] => []
  | c :: cs =>
      if pfx needle (c :: cs) then (c :: cs).drop needle.length
      else afterSubChars needle cs

/-- The prompt built by `TrendAnalysisAgent._execute_core` (text abridged to
its head; the claims do not depend on the prompt wording, only on whether
the capability is invoked at all). -/
def trendPrompt (topic : String) : String :=
  "You are a world-class marketing and social media analyst. " ++
  "Your task is to analyze the topic: '" ++ topic ++ "'." ++
  "Provide a detailed trend analysis in Greek."

/-- The response post-processing of `TrendAnalysisAgent._execute_core`:
strip a `</think>` block, then cut to the first `###` header. -/
def trendParse (raw : String) : String :=
  let r1 :=
    if pyContains raw "</think>" then
      (String.mk (afterSubChars "</think>".data raw.data)).trim
    else raw.trim
  if pyContains r1 "###" then String.mk (fromSubChars "###".data r1.data)
  else r1

/-- The `try`/`except` around the Groq call in
`TrendAnalysisAgent._execute_core`: a raised API error is absorbed into a
fixed error report. -/
def trendReport (llm : String → Except String String) (topic : Value) :
    String :=
  match llm (trendPrompt topic.pyStr) with
  | .ok raw => trendParse raw
  | .error _ => "Error: Could not generate trend report."

/-- `TrendAnalysisAgent._execute_core`: skip (with a marker report) when the
client is unconfigured or `topic` is missing/falsy; otherwise call the LLM
and post-process.  Always returns
`{**state, "trend_analysis_report": report}` and never raises. -/
def trendCore (clientOK : Bool) (llm : String → Except String String)
    (s : StateDict) : StateDict :=
  let topic := Dict.pyGet s "topic" .pynone
  if !clientOK || !topic.truthy then
    Dict.insert s "trend_analysis_report"
      (.str "Trend analysis could not be performed.")
  else
    Dict.insert s "trend_analysis_report" (.str (trendReport llm topic))

/-- `TrendAnalysisAgent`'s core as a `CoreBehavior` (it completes within the
timeout and never raises; the LLM call's failure is absorbed inside it). -/
def trendBehavior (clientOK : Bool) (llm : String → Except String String) :
    CoreBehavior :=
  fun _ s => .ok (trendCore clientOK llm s)

/-! ### `SocialMediaAgent` (`specialists/social_media.py`)

The nested platform specialist agents (`TwitterAgent`, … accessed through
their own `EnhancedBaseAgent` wrapper, which never raises) are modelled as
an opaque total function `opt : platform → draft → specialized draft`. -/

/-- The keys of `SocialMediaAgent.platform_agents`. -/
def socialPlatformKeys : List String :=
  ["twitter", "instagram", "facebook", "tiktok", "blog"]

/-- The inner platform loop of `SocialMediaAgent._execute_core` for one
content piece: builds `platform_results`.  A non-string platform would
raise `AttributeError` on `.lower()`. -/
def socialPlatformLoop (opt : String → String → String) (draft : String)
    (platforms : List Value) : Except String StateDict :=
  platforms.foldlM
    (fun acc p =>
      match p with
      | .str pname =>
          if socialPlatformKeys.contains (strLower pname) then
            .ok (Dict.insert acc pname (.str (opt pname draft)))
          else .ok acc
      | _ => .error "AttributeError: object has no attribute lower") []

/-- Process one piece of `content`: a non-mapping piece raises
`AttributeError` on `content_piece.get`. -/
def socialOptimizePiece (opt : String → String → String)
    (platforms : List Value) (piece : Value) : Except String Value :=
  match piece with
  | .vdict d => do
      let draft := (Dict.pyGet d "content" (.str "")).pyStr
      let platRes ← socialPlatformLoop opt draft platforms
      .ok (.vdict [("original_content", piece),
                   ("platform_optimizations", .vdict platRes)])
  | _ => .error "AttributeError: object has no attribute get"

/-- `SocialMediaAgent._execute_core`: raises `ValueError` when `content` is
missing/empty; on success returns the fresh dict
`{"optimized_content": ...}` — it does not spread the input state. -/
def socialCore (opt : String → String → String) (s : StateDict) :
    Except String StateDict := do
  let contentV := Dict.pyGet s "content" (.vlist [])
  let platformsV :=
    Dict.pyGet s "platforms" (.vlist [.str "instagram", .str "facebook"])
  if !contentV.truthy then
    .error "State must include 'content'"
  else
    match contentV, platformsV with
    | .vlist pieces, .vlist platforms => do
        let optimized ← pieces.mapM (socialOptimizePiece opt platforms)
        .ok [("optimized_content", .vlist optimized)]
    | _, _ => .error "TypeError: object is not iterable"

/-- `SocialMediaAgent`'s core as a `CoreBehavior`. -/
def socialBehavior (opt : String → String → String) : CoreBehavior :=
  fun _ s =>
    match socialCore opt s with
    | .ok d => .ok d
    | .error m => .raises m

/-! ### `EnhancedOrchestrator` (`enhanced_orchestrator.py`)

Orchestration-level exceptions are modelled by `Except String`; the agents'
mutable metrics are threaded explicitly.  `t` stands for the `datetime.now()`
readings (one abstract instant; no claim depends on distinct clock values)
and `ts` for `isoformat()` strings used in error dicts. -/

/-- One agent instance held by the orchestrator: its name, config and
mutable metrics. -/
structure AgentInstance where
  name : String
  cfg : AgentConfig
  metrics : AgentMetrics

/-- Invoke an agent through its wrapper, returning the output state and the
instance with updated metrics. -/
def runAgent (a : AgentInstance) (core : CoreBehavior) (s : StateDict)
    (t : Int) (ts : String) : StateDict × AgentInstance :=
  let (res, m') := execute_with_metrics a.cfg a.name a.metrics core s t t ts
  (res, { a with metrics := m' })

/-- The orchestrator: the seven agents built in `_initialize_agents` (in dict
insertion order) and the workflow history. -/
structure Orchestrator where
  trendA : AgentInstance
  strategyA : AgentInstance
  writerA : AgentInstance
  socialA : AgentInstance
  imageA : AgentInstance
  visualA : AgentInstance
  briefingA : AgentInstance
  workflow_history : List StateDict

/-- A freshly constructed agent with default config (`t0` is construction
time). -/
def mkAgent (name : String) (t0 : Int) : AgentInstance :=
  { name := name, cfg := {}, metrics := initMetrics t0 }

/-- `EnhancedOrchestrator.__init__` / `_initialize_agents`. -/
def initOrchestrator (t0 : Int) : Orchestrator :=
  { trendA := mkAgent "Enhanced Trend Analysis Agent" t0
    strategyA := mkAgent "Enhanced Content Strategy Agent" t0
    writerA := mkAgent "Content Writer Agent" t0
    socialA := mkAgent "Social Media Agent" t0
    imageA := mkAgent "Image Generation Agent" t0
    visualA := mkAgent "Visual Suggestion Agent" t0
    briefingA := mkAgent "Client Briefing Agent" t0
    workflow_history := [] }

/-- The `self.agents` dict in insertion order. -/
def agentsList (o : Orchestrator) : List (String × AgentInstance) :=
  [("trend_analysis", o.trendA), ("content_strategy", o.strategyA),
   ("content_writer", o.writerA), ("social_media", o.socialA),
   ("image_generation", o.imageA), ("visual_suggestion", o.visualA),
   ("client_briefing", o.briefingA)]

/-- Core behaviours for the agents a workflow actually invokes
(`visual_suggestion` is constructed but never used by `_execute_phases`). -/
structure WorkflowCores where
  trend : CoreBehavior
  strategy : CoreBehavior
  writer : CoreBehavior
  social : CoreBehavior
  image : CoreBehavior
  briefing : CoreBehavior

/-- `EnhancedOrchestrator._create_content_batch`: take the first 5 calendar
entries, run the content writer on each, collect the pieces.  A non-mapping
calendar entry raises `AttributeError` on `day_content.get` — and the
`except` handler's log message evaluates `day_content.get('day')` again, so
the exception escapes the per-item handler and aborts the batch (modelled by
`Except.error`).  A non-list `content_calendar` fails at the `calendar[:5]`
slice.  `contentBatchStep` is the body of the per-entry loop. -/
def contentBatchStep (writerCore : CoreBehavior) (s : StateDict) (t : Int)
    (ts : String) (acc : List Value × AgentInstance) (item : Value) :
    Except String (List Value × AgentInstance) :=
  match item with
  | .vdict d =>
      let content_state :=
        Dict.insert
          (Dict.insert
            (Dict.insert s "content_type" (Dict.pyGet d "type" (.str "post")))
            "platform" (Dict.pyGet d "platform" (.str "instagram")))
          "theme" (Dict.pyGet d "theme" (.str "general"))
      let (res, w') := runAgent acc.2 writerCore content_state t ts
      .ok (acc.1 ++
           [Value.vdict [("day", Dict.pyGet d "day" .pynone),
                         ("content", Dict.pyGet res "content" (.str "")),
                         ("metadata", .vdict res)]], w')
  | _ => .error "AttributeError: object has no attribute get"

def create_content_batch (writer : AgentInstance) (writerCore : CoreBehavior)
    (s : StateDict) (t : Int) (ts : String) :
    Except String (StateDict × AgentInstance) :=
  match Dict.pyGet s "content_calendar" (.vlist []) with
  | .vlist calendar =>
      ((calendar.take 5).foldlM (contentBatchStep writerCore s t ts)
        ([], writer)).map
        (fun pw =>
          ([("content", .vlist pw.1), ("total_created", .int pw.1.length),
            ("total_planned", .int calendar.length)], pw.2))
  | _ => .error "TypeError: object is not subscriptable"

/-- `EnhancedOrchestrator._create_visual_assets`: take the first 3 content
pieces, run the image-generation agent on each.  The same handler bug as in
the content batch applies to a non-mapping piece.  `visualAssetStep` is the
body of the per-piece loop. -/
def visualAssetStep (imageCore : CoreBehavior) (s : StateDict) (t : Int)
    (ts : String) (acc : List Value × AgentInstance) (item : Value) :
    Except String (List Value × AgentInstance) :=
  match item with
  | .vdict d =>
      let visual_state :=
        Dict.insert
          (Dict.insert s "content" (Dict.pyGet d "content" (.str "")))
          "content_type" (.str "social_media_post")
      let (vr, img') := runAgent acc.2 imageCore visual_state t ts
      .ok (acc.1 ++
           [Value.vdict
              [("content_id", Dict.pyGet d "day" .pynone),
               ("visual_prompt", Dict.pyGet vr "image_prompt" (.str "")),
               ("suggestions", Dict.pyGet vr "suggestions" (.vlist []))]],
           img')
  | _ => .error "AttributeError: object has no attribute get"

def create_visual_assets (image : AgentInstance) (imageCore : CoreBehavior)
    (s contentResults : StateDict) (t : Int) (ts : String) :
    Except String (StateDict × AgentInstance) :=
  match Dict.pyGet contentResults "content" (.vlist []) with
  | .vlist pieces =>
      ((pieces.take 3).foldlM (visualAssetStep imageCore s t ts)
        ([], image)).map
        (fun vw =>
          ([("visuals", .vlist vw.1), ("total_created", .int vw.1.length)], vw.2))
  | _ => .error "TypeError: object is not subscriptable"

/-- A phase entry `{"output": ..., "metrics": agent.get_metrics()}`. -/
def phaseEntry (out : StateDict) (a : AgentInstance) : Value :=
  .vdict [("output", .vdict out), ("metrics", get_metrics a.name a.cfg a.metrics)]

/-- `EnhancedOrchestrator._execute_phases`: the six phases in order, each
consuming the accumulated state, with the agents' metrics threaded through.
An orchestration-level exception (from the batch helpers) aborts the
remaining phases. -/
def execute_phases (o : Orchestrator) (cores : WorkflowCores) (s : StateDict)
    (t : Int) (ts : String) :
    Except String (List (String × Value)) × Orchestrator :=
  let tr := runAgent o.trendA cores.trend s t ts
  let st := runAgent o.strategyA cores.strategy tr.1 t ts
  let o1 := { o with trendA := tr.2, strategyA := st.2 }
  match create_content_batch o.writerA cores.writer st.1 t ts with
  | .error e => (.error e, o1)
  | .ok cb =>
      let o2 := { o1 with writerA := cb.2 }
      match create_visual_assets o.imageA cores.image st.1 cb.1 t ts with
      | .error e => (.error e, o2)
      | .ok va =>
          let contentList := Dict.pyGet cb.1 "content" (.vlist [])
          let visualsList := Dict.pyGet va.1 "visuals" (.vlist [])
          let socialInput :=
            Dict.insert (Dict.insert st.1 "content" contentList)
              "visuals" visualsList
          let so := runAgent o.socialA cores.social socialInput t ts
          let briefInput :=
            Dict.insert
              (Dict.insert (Dict.insert st.1 "content" contentList)
                "visuals" visualsList)
              "social_optimization" (.vdict so.1)
          let br := runAgent o.briefingA cores.briefing briefInput t ts
          (.ok [("trend_analysis", phaseEntry tr.1 tr.2),
                ("content_strategy", phaseEntry st.1 st.2),
                ("content_creation", .vdict cb.1),
                ("visual_assets", .vdict va.1),
                ("social_media", phaseEntry so.1 so.2),
                ("client_briefing", phaseEntry br.1 br.2)],
           { o2 with imageA := va.2, socialA := so.2, briefingA := br.2 })

/-- The per-phase success test of `_compile_results`:
`"error" not in str(phase)` — a substring test over the printed phase. -/
def phaseSuccess (v : Value) : Bool := !(pyContains v.pyRepr "error")

/-- The number of agents the orchestrator holds (`len(self.agents)`). -/
def totalAgents : Nat := 7

/-- `EnhancedOrchestrator._compile_results`: the `completed` workflow record
with duration, phase outputs and the aggregate summary.  `success_rate`
divides by `len(self.agents)` (7), not by the number of phases (6).
The `start_time` ISO string is modelled by its integer timestamp. -/
def compile_results (phases : List (String × Value)) (wfId : String)
    (endT : Int) : StateDict :=
  let trendOutput : StateDict :=
    match Dict.lookup phases "trend_analysis" with
    | some (.vdict pv) =>
        match Dict.lookup pv "output" with
        | some (.vdict out) => out
        | _ => []
    | _ => []
  let startT : Int :=
    match Dict.pyGet trendOutput "start_time" (.int endT) with
    | .int n => n
    | _ => endT
  let successful : Nat := phases.countP (fun kv => phaseSuccess kv.2)
  let contentCreated : Value :=
    match Dict.lookup phases "content_creation" with
    | some (.vdict d) => Dict.pyGet d "total_created" .pynone
    | _ => .pynone
  let visualsCreated : Value :=
    match Dict.lookup phases "visual_assets" with
    | some (.vdict d) => Dict.pyGet d "total_created" .pynone
    | _ => .pynone
  [("workflow_id", .str wfId),
   ("status", .str "completed"),
   ("duration_seconds", .int (endT - startT)),
   ("phases", .vdict phases),
   ("summary", .vdict
      [("total_agents", .int totalAgents),
       ("successful_phases", .int successful),
       ("success_rate", .rat ((successful : Rat) / (totalAgents : Rat))),
       ("content_pieces_created", contentCreated),
       ("visuals_created", visualsCreated)]),
   ("timestamp", .int endT)]

/-- `EnhancedOrchestrator._handle_workflow_error`: the `failed` record. -/
def handle_workflow_error (wfId err : String) (endT : Int) : StateDict :=
  [("workflow_id", .str wfId), ("status", .str "failed"),
   ("error", .str err), ("timestamp", .int endT)]

/-- The initial state built by `execute_workflow` from the workflow
config. -/
def workflowInitState (config : StateDict) (t : Int) : StateDict :=
  [("workflow_id", .str ("workflow_" ++ toString t)),
   ("start_time", .int t),
   ("config", .vdict config),
   ("topic", Dict.pyGet config "topic" .pynone),
   ("target_audience", Dict.pyGet config "target_audience" (.str "general")),
   ("content_goals", Dict.pyGet config "content_goals"
      (.vlist [.str "engagement"])),
   ("platforms", Dict.pyGet config "platforms"
      (.vlist [.str "instagram", .str "facebook"])),
   ("duration", Dict.pyGet config "duration" (.int 30)),
   ("budget", Dict.pyGet config "budget" (.int 1000))]

/-- `EnhancedOrchestrator.execute_workflow`: build the initial state from the
config, run the phases, compile the record and append it to the history; an
orchestration-level exception is caught at top level and converted into a
`failed` record, which is returned without being appended. -/
def execute_workflow (o : Orchestrator) (cores : WorkflowCores)
    (config : StateDict) (t : Int) (ts : String) : StateDict × Orchestrator :=
  let wfId := "workflow_" ++ toString t
  let state := workflowInitState config t
  match execute_phases o cores state t ts with
  | (.ok phases, o1) =>
      let finalResults := compile_results phases wfId t
      (finalResults,
       { o1 with workflow_history := o1.workflow_history ++ [finalResults] })
  | (.error e, o1) => (handle_workflow_error wfId e t, o1)

/-- The slice `history[-limit:] if history else []` of
`get_workflow_history` (note Python's `[-0:]` is the whole list). -/
def historySlice (h : List StateDict) (limit : Nat) : List StateDict :=
  if h.isEmpty then []
  else if limit = 0 then h
  else h.drop (h.length - limit)

/-- `EnhancedOrchestrator.get_workflow_history`. -/
def get_workflow_history (o : Orchestrator) (limit : Nat) : List StateDict :=
  historySlice o.workflow_history limit

/-- `EnhancedOrchestrator.get_agent_metrics`. -/
def get_agent_metrics (o : Orchestrator) : Value :=
  .vdict ((agentsList o).map
    (fun na => (na.1, get_metrics na.2.name na.2.cfg na.2.metrics)))

/-- `EnhancedOrchestrator.get_system_status`: agent count, workflow count,
most recent workflow id (or `None`), per-agent metrics, and the derived
health flag (`healthy` iff every agent's success rate exceeds 0.8). -/
def get_system_status (o : Orchestrator) : StateDict :=
  [("agents_initialized", .int (agentsList o).length),
   ("total_workflows", .int o.workflow_history.length),
   ("last_workflow",
      match o.workflow_history.getLast? with
      | some r => Dict.pyGet r "workflow_id" .pynone
      | none => .pynone),
   ("agent_metrics", get_agent_metrics o),
   ("system_health",
      .str (if (agentsList o).all
              (fun na => decide ((0.8 : Rat) < na.2.metrics.success_rate))
            then "healthy" else "degraded"))]

/-! ### Helper lemmas about the dictionary model -/

theorem Dict.lookup_insert_self (d : StateDict) (k : String) (v : Value) :
    Dict.lookup (Dict.insert d k v) k = some v := by
  induction d with
  | nil => simp [Dict.insert, Dict.lookup]
  | cons kv rest ih =>
      by_cases h : kv.1 = k
      · simp [Dict.insert, Dict.lookup, h]
      · simp [Dict.insert, Dict.lookup, h, ih]

theorem Dict.lookup_insert_ne (d : StateDict) {k' k : String} (v : Value)
    (h : ¬ k' = k) :
    Dict.lookup (Dict.insert d k' v) k = Dict.lookup d k := by
  have h2 : ¬ k = k' := fun hh => h hh.symm
  induction d with
  | nil => simp [Dict.insert, Dict.lookup, h]
  | cons kv rest ih =>
      by_cases hk : kv.1 = k'
      · simp [Dict.insert, Dict.lookup, hk, h]
      · by_cases hk2 : kv.1 = k
        · simp [Dict.insert, Dict.lookup, hk, hk2, h2]
        · simp [Dict.insert, Dict.lookup, hk, hk2, ih]

theorem Dict.keys_insert_mem (d : StateDict) (k' : String) (v : Value)
    {a : String} (h : a ∈ Dict.keys d) :
    a ∈ Dict.keys (Dict.insert d k' v) := by
  induction d with
  | nil => simp [Dict.keys] at h
  | cons kv rest ih =>
      by_cases hk : kv.1 = k'
      · simpa [Dict.insert, Dict.keys, hk] using h
      · simp [Dict.keys, Dict.insert, hk] at h ⊢
        rcases h with h | h
        · exact Or.inl h
        · exact Or.inr (by simpa [Dict.keys] using ih (by simpa [Dict.keys] using h))

/-! ### Helper lemmas about the retry loop -/

/-- Did this attempt end in a raised exception? -/
def exnFails : Except Exn StateDict → Bool
  | .error _ => true
  | .ok _ => false

/-- The exception raised by attempt `i` (meaningful when the attempt
fails). -/
def attemptErr (cfg : AgentConfig) (core : CoreBehavior) (s : StateDict)
    (i : Nat) : Exn :=
  match execute_with_timeout cfg (core i s) with
  | .error e => e
  | .ok _ => .error ""

theorem attempt_error_eq {cfg : AgentConfig} {core : CoreBehavior}
    {s : StateDict} {i : Nat}
    (h : exnFails (execute_with_timeout cfg (core i s)) = true) :
    execute_with_timeout cfg (core i s) = .error (attemptErr cfg core s i) := by
  unfold attemptErr
  cases hx : execute_with_timeout cfg (core i s) with
  | ok r => rw [hx] at h; simp [exnFails] at h
  | error e => simp

/-- If every attempt fails, the retry loop starting at attempt `a` with
`n + 1` attempts remaining makes exactly `n + 1` attempts, sleeps
`retry_delay * (attempt + 1)` after each non-final failure, and ends with
the last attempt's exception. -/
theorem execute_safe_go_all_fail (cfg : AgentConfig) (core : CoreBehavior)
    (s : StateDict)
    (H : ∀ i, exnFails (execute_with_timeout cfg (core i s)) = true) :
    ∀ n a, execute_safe_go cfg core s a (n + 1) =
      ⟨.error (attemptErr cfg core s (a + n)), n + 1,
       (List.range n).map
         (fun j => cfg.retry_delay * (((a + j : Nat) : Rat) + 1))⟩ := by
  intro n
  induction n with
  | zero =>
      intro a
      unfold execute_safe_go
      rw [attempt_error_eq (H a)]
      simp
  | succ n ih =>
      intro a
      unfold execute_safe_go
      rw [attempt_error_eq (H a)]
      simp only [Nat.succ_ne_zero, if_false, ih (a + 1), SafeResult.mk.injEq]
      refine ⟨by rw [show a + 1 + n = a + (n + 1) from by omega], trivial, ?_⟩
      rw [List.range_succ_eq_map, List.map_cons, List.map_map]
      refine congrArg₂ List.cons (by norm_num) ?_
      apply List.map_congr_left
      intro j _
      simp only [Function.comp_apply]
      have : a + 1 + j = a + (j + 1) := by omega
      rw [this]

/-! ### Claim theorems -/

/-- **C1** (retry exhaustion).  If every attempt of the core logic fails,
`_execute_safe` makes exactly `retry_count + 1` attempts, sleeping
`retry_delay * attempt_number` (attempt numbers 1, 2, …, linear and, for a
positive delay, strictly increasing) between attempts, and
`execute_with_metrics` then returns — without raising — the input state
augmented with the `error` info dict `{error message, agent name,
timestamp}` and the agent-specific error key. -/
theorem C1_retry_exhaustion (cfg : AgentConfig) (name : String)
    (m : AgentMetrics) (core : CoreBehavior) (s : StateDict)
    (start finish : Int) (ts : String)
    (H : ∀ i, exnFails (execute_with_timeout cfg (core i s)) = true) :
    (execute_safe cfg core s).attempts = cfg.retry_count + 1 ∧
    (execute_safe cfg core s).sleeps =
      (List.range cfg.retry_count).map
        (fun j : Nat => cfg.retry_delay * ((j : Rat) + 1)) ∧
    (0 < cfg.retry_delay →
      (execute_safe cfg core s).sleeps.Pairwise (· < ·)) ∧
    (execute_with_metrics cfg name m core s start finish ts).1 =
      Dict.insert
        (Dict.insert s "error"
          (.vdict [("error", .str (attemptErr cfg core s cfg.retry_count).msg),
                   ("agent", .str name), ("timestamp", .str ts)]))
        (agentErrKey name)
        (.str (attemptErr cfg core s cfg.retry_count).msg) := by
  have hgo := execute_safe_go_all_fail cfg core s H cfg.retry_count 0
  have hsafe : execute_safe cfg core s =
      ⟨.error (attemptErr cfg core s cfg.retry_count), cfg.retry_count + 1,
       (List.range cfg.retry_count).map
         (fun j : Nat => cfg.retry_delay * ((j : Rat) + 1))⟩ := by
    unfold execute_safe
    rw [hgo]
    simp only [SafeResult.mk.injEq]
    refine ⟨by rw [Nat.zero_add], trivial, ?_⟩
    apply List.map_congr_left
    intro j _
    rw [Nat.zero_add]
  refine ⟨by rw [hsafe], by rw [hsafe], ?_, ?_⟩
  · intro hd
    rw [hsafe]
    simp only
    refine List.Pairwise.map _ ?_ (List.pairwise_lt_range cfg.retry_count)
    intro i j hij
    have : (i : Rat) + 1 < (j : Rat) + 1 := by
      have : (i : Rat) < (j : Rat) := by exact_mod_cast hij
      linarith
    exact mul_lt_mul_of_pos_left this hd
  · unfold execute_with_metrics
    rw [hsafe]
    rfl

/-- Witness for C1: a core that always raises, `retry_count = 2`,
`retry_delay = 1`: exactly 3 attempts, sleeps `[1, 2]`, and the wrapped call
returns the error-augmented state. -/
theorem C1_retry_exhaustion_witness :
    (execute_safe { retry_count := 2, retry_delay := 1 }
        (fun _ _ => .raises "boom") [("topic", .str "AI")]).attempts = 3 ∧
    (execute_safe { retry_count := 2, retry_delay := 1 }
        (fun _ _ => .raises "boom") [("topic", .str "AI")]).sleeps = [1, 2] ∧
    (execute_with_metrics { retry_count := 2, retry_delay := 1 }
        "Trend Analysis Agent" (initMetrics 0)
        (fun _ _ => .raises "boom") [("topic", .str "AI")] 0 0 "T").1 =
      [("topic", .str "AI"),
       ("error", .vdict [("error", .str "boom"),
                         ("agent", .str "Trend Analysis Agent"),
                         ("timestamp", .str "T")]),
       ("trend_analysis_agent_error", .str "boom")] := by
  have h := C1_retry_exhaustion { retry_count := 2, retry_delay := 1 }
    "Trend Analysis Agent" (initMetrics 0) (fun _ _ => .raises "boom")
    [("topic", .str "AI")] 0 0 "T" (fun _ => rfl)
  refine ⟨h.1, ?_, ?_⟩
  · rw [h.2.1]
    norm_num [List.range_succ]
  · rw [h.2.2.2]; rfl

/-- The two terminal branches of `execute_with_metrics`, as rewrite
equations. -/
theorem execute_with_metrics_of_ok {cfg : AgentConfig} {name : String}
    {m : AgentMetrics} {core : CoreBehavior} {s : StateDict}
    {start finish : Int} {ts : String} {r : StateDict}
    (h : (execute_safe cfg core s).result = .ok r) :
    execute_with_metrics cfg name m core s start finish ts =
      (r, { m with total_calls := m.total_calls + 1,
                   execution_time := ((finish - start : Int) : Rat),
                   last_execution := finish }) := by
  unfold execute_with_metrics
  rw [h]

theorem execute_with_metrics_of_error {cfg : AgentConfig} {name : String}
    {m : AgentMetrics} {core : CoreBehavior} {s : StateDict}
    {start finish : Int} {ts : String} {e : Exn}
    (h : (execute_safe cfg core s).result = .error e) :
    execute_with_metrics cfg name m core s start finish ts =
      (handle_error name s e ts,
       { m with total_calls := m.total_calls + 1,
                error_count := m.error_count + 1,
                success_rate :=
                  (((m.total_calls + 1 : Nat) : Rat) -
                    ((m.error_count + 1 : Nat) : Rat)) /
                    ((m.total_calls + 1 : Nat) : Rat) }) := by
  unfold execute_with_metrics
  rw [h]

/-- **C3** (counterexample).  The claim says `success_rate` is recomputed on
every terminal outcome and equals 1.0 after consecutive fully-successful
runs regardless of earlier failures.  With `retry_count = 0`: one failing
run (rate set to 0), then one successful run — `total_calls = 2`,
`error_count = 1`, but `success_rate` is still 0: not 1.0 (and not the
recomputed `(2-1)/2` either).  Moreover the failing run does not record
`execution_time` (stays 0 despite a 5-second duration). -/
theorem C3_metrics_counterexample :
    ((execute_with_metrics { retry_count := 0 } "A"
        ((execute_with_metrics { retry_count := 0 } "A" (initMetrics 0)
            (fun _ _ => .raises "x") [] 0 0 "T").2)
        (fun _ _ => .ok []) [] 0 0 "T").2.total_calls = 2 ∧
     (execute_with_metrics { retry_count := 0 } "A"
        ((execute_with_metrics { retry_count := 0 } "A" (initMetrics 0)
            (fun _ _ => .raises "x") [] 0 0 "T").2)
        (fun _ _ => .ok []) [] 0 0 "T").2.error_count = 1 ∧
     (execute_with_metrics { retry_count := 0 } "A"
        ((execute_with_metrics { retry_count := 0 } "A" (initMetrics 0)
            (fun _ _ => .raises "x") [] 0 0 "T").2)
        (fun _ _ => .ok []) [] 0 0 "T").2.success_rate = 0) ∧
    ¬ (execute_with_metrics { retry_count := 0 } "A"
        ((execute_with_metrics { retry_count := 0 } "A" (initMetrics 0)
            (fun _ _ => .raises "x") [] 0 0 "T").2)
        (fun _ _ => .ok []) [] 0 0 "T").2.success_rate = 1 ∧
    (execute_with_metrics { retry_count := 0 } "A" (initMetrics 0)
        (fun _ _ => .raises "x") [] 0 5 "T").2.execution_time = 0 := by
  have h1 : (execute_with_metrics { retry_count := 0 } "A" (initMetrics 0)
      (fun _ _ => .raises "x") [] 0 0 "T").2 =
      { execution_time := 0, success_rate := 0, last_execution := 0,
        total_calls := 1, error_count := 1 } := by
    have he : (execute_safe { retry_count := 0 }
        (fun _ _ => CoreOutcome.raises "x") ([] : StateDict)).result =
        .error (.error "x") := rfl
    rw [execute_with_metrics_of_error he]
    simp [initMetrics]
  have h2 : (execute_with_metrics { retry_count := 0 } "A" (initMetrics 0)
      (fun _ _ => .raises "x") [] 0 5 "T").2.execution_time = 0 := by
    have he : (execute_safe { retry_count := 0 }
        (fun _ _ => CoreOutcome.raises "x") ([] : StateDict)).result =
        .error (.error "x") := rfl
    rw [execute_with_metrics_of_error he]
    rfl
  have hok : (execute_safe { retry_count := 0 }
      (fun _ _ => CoreOutcome.ok ([] : StateDict)) ([] : StateDict)).result =
      .ok [] := rfl
  rw [h1, execute_with_metrics_of_ok hok]
  refine ⟨⟨rfl, rfl, rfl⟩, by norm_num, h2⟩

/-- **C3** (amended).  `execute_with_metrics` increments `total_calls`
exactly once per terminal outcome.  On success it records `execution_time`
and `last_execution` but leaves `success_rate` and `error_count` untouched;
only on terminal failure does it increment `error_count` and recompute
`success_rate = (total_calls - error_count) / total_calls`, and there it
does not update `execution_time`/`last_execution`.  Hence consecutive
successes after a failure leave `success_rate` at its last failure-time
value. -/
theorem C3_metrics_amended (cfg : AgentConfig) (name : String)
    (m : AgentMetrics) (core : CoreBehavior) (s : StateDict)
    (start finish : Int) (ts : String) :
    (execute_with_metrics cfg name m core s start finish ts).2.total_calls =
      m.total_calls + 1 ∧
    (∀ r, (execute_safe cfg core s).result = .ok r →
      (execute_with_metrics cfg name m core s start finish ts).2 =
        { m with total_calls := m.total_calls + 1,
                 execution_time := ((finish - start : Int) : Rat),
                 last_execution := finish }) ∧
    (∀ e, (execute_safe cfg core s).result = .error e →
      (execute_with_metrics cfg name m core s start finish ts).2 =
        { m with total_calls := m.total_calls + 1,
                 error_count := m.error_count + 1,
                 success_rate :=
                   (((m.total_calls + 1 : Nat) : Rat) -
                     ((m.error_count + 1 : Nat) : Rat)) /
                     ((m.total_calls + 1 : Nat) : Rat) }) := by
  refine ⟨?_, ?_, ?_⟩
  · unfold execute_with_metrics
    cases h : (execute_safe cfg core s).result with
    | ok r => simp
    | error e => simp
  · intro r h
    unfold execute_with_metrics
    rw [h]
  · intro e h
    unfold execute_with_metrics
    rw [h]

/-- Witness for C3 (amended): a clean successful run from fresh metrics. -/
theorem C3_metrics_amended_witness :
    (execute_with_metrics {} "A" (initMetrics 0) (fun _ _ => .ok [])
        [] 0 7 "T").2.total_calls = 1 ∧
    (execute_with_metrics {} "A" (initMetrics 0) (fun _ _ => .ok [])
        [] 0 7 "T").2 =
      { initMetrics 0 with total_calls := 1,
                           execution_time := ((7 - 0 : Int) : Rat),
                           last_execution := 7 } := by
  have h := C3_metrics_amended {} "A" (initMetrics 0) (fun _ _ => .ok [])
    [] 0 7 "T"
  exact ⟨h.1, h.2.1 [] rfl⟩

/-- If the first attempt succeeds, `_execute_safe` returns it directly:
one attempt, no sleeps. -/
theorem execute_safe_first_ok {cfg : AgentConfig} {core : CoreBehavior}
    {s r : StateDict} (h : execute_with_timeout cfg (core 0 s) = .ok r) :
    execute_safe cfg core s = ⟨.ok r, 1, []⟩ := by
  unfold execute_safe execute_safe_go
  rw [h]

/-- **C8** (timeout isolation).  An attempt whose core overruns
`config.timeout` fails with the distinct `TimeoutError` kind — uniformly in
(and hence discarding) the attempt's would-be output; such a failure is
retried under the same policy as any other failure (an overrun first
attempt followed by a good one succeeds on the second attempt when
`retry_count ≥ 1`); and when every attempt overruns, the wrapper's returned
state is exactly the input state plus the error keys — no partial output is
merged. -/
theorem C8_timeout_isolation (cfg : AgentConfig) (name : String)
    (m : AgentMetrics) (s : StateDict) (start finish : Int) (ts : String)
    (core₁ core₂ : CoreBehavior) (d r : StateDict)
    (partials : Nat → StateDict)
    (h0 : core₁ 0 s = .overruns d) (h1 : core₁ 1 s = .ok r)
    (hrc : 1 ≤ cfg.retry_count)
    (hall : ∀ i, core₂ i s = .overruns (partials i)) :
    (∀ d', execute_with_timeout cfg (.overruns d') =
        .error (.timeoutError
          ("Agent execution timed out after " ++ toString cfg.timeout ++ "s"))) ∧
    (execute_safe cfg core₁ s).result = .ok r ∧
    (execute_safe cfg core₁ s).attempts = 2 ∧
    (execute_with_metrics cfg name m core₂ s start finish ts).1 =
      handle_error name s
        (.timeoutError
          ("Agent execution timed out after " ++ toString cfg.timeout ++ "s"))
        ts := by
  obtain ⟨n, hn⟩ : ∃ n, cfg.retry_count = n + 1 :=
    ⟨cfg.retry_count - 1, by omega⟩
  have hsafe : execute_safe cfg core₁ s =
      ⟨.ok r, 2, [cfg.retry_delay * (((0 : Nat) : Rat) + 1)]⟩ := by
    unfold execute_safe
    rw [hn]
    show execute_safe_go cfg core₁ s 0 (n + 1 + 1) = _
    unfold execute_safe_go
    rw [h0]
    simp only [execute_with_timeout, Nat.succ_ne_zero, if_false]
    unfold execute_safe_go
    rw [h1]
    simp only [execute_with_timeout]
  have H : ∀ i, exnFails (execute_with_timeout cfg (core₂ i s)) = true := by
    intro i
    rw [hall i]
    rfl
  have hres : (execute_safe cfg core₂ s).result =
      .error (attemptErr cfg core₂ s cfg.retry_count) := by
    unfold execute_safe
    rw [execute_safe_go_all_fail cfg core₂ s H cfg.retry_count 0, Nat.zero_add]
  have hatt : attemptErr cfg core₂ s cfg.retry_count =
      .timeoutError
        ("Agent execution timed out after " ++ toString cfg.timeout ++ "s") := by
    unfold attemptErr
    rw [hall cfg.retry_count]
    rfl
  have hfin : (execute_safe cfg core₂ s).result =
      .error (.timeoutError
        ("Agent execution timed out after " ++ toString cfg.timeout ++ "s")) := by
    rw [hres, hatt]
  refine ⟨fun d' => rfl, ?_, ?_, ?_⟩
  · rw [hsafe]
  · rw [hsafe]
  · rw [execute_with_metrics_of_error hfin]

/-- Witness for C8: `retry_count = 1`, a core that overruns once then
succeeds, and a core that always overruns. -/
theorem C8_timeout_isolation_witness :
    (execute_safe { retry_count := 1 }
        (fun i _ => if i = 0 then CoreOutcome.overruns [("leak", .str "x")]
                    else CoreOutcome.ok [("done", .bool true)])
        [("topic", .str "AI")]).result = .ok [("done", .bool true)] ∧
    (execute_safe { retry_count := 1 }
        (fun i _ => if i = 0 then CoreOutcome.overruns [("leak", .str "x")]
                    else CoreOutcome.ok [("done", .bool true)])
        [("topic", .str "AI")]).attempts = 2 ∧
    (execute_with_metrics { retry_count := 1 } "A" (initMetrics 0)
        (fun i _ => CoreOutcome.overruns [("leak", .int i)])
        [("topic", .str "AI")] 0 0 "T").1 =
      handle_error "A" [("topic", .str "AI")]
        (.timeoutError
          ("Agent execution timed out after " ++
            toString (AgentConfig.timeout { retry_count := 1 }) ++ "s"))
        "T" := by
  have h := C8_timeout_isolation { retry_count := 1 } "A" (initMetrics 0)
    [("topic", .str "AI")] 0 0 "T"
    (fun i _ => if i = 0 then CoreOutcome.overruns [("leak", .str "x")]
                else CoreOutcome.ok [("done", .bool true)])
    (fun i _ => CoreOutcome.overruns [("leak", .int i)])
    [("leak", .str "x")] [("done", .bool true)]
    (fun i => [("leak", .int i)])
    rfl rfl (le_refl 1) (fun i => rfl)
  exact ⟨h.2.1, h.2.2.1, h.2.2.2⟩

/-- **C6** (counterexample).  Running the topic-requiring
`TrendAnalysisAgent` on the empty state does increment `total_calls` (the
wrapper counts the invocation before the core decides to skip), so the
claim's conjunct `total_calls unchanged` is false: it goes from 0 to 1. -/
theorem C6_skip_counterexample :
    (initMetrics 0).total_calls = 0 ∧
    (execute_with_metrics {} "Trend Analysis Agent" (initMetrics 0)
        (trendBehavior true (fun _ => .error "offline"))
        [] 0 0 "T").2.total_calls = 1 := by
  exact ⟨rfl, rfl⟩

/-- **C6** (amended).  On a state with missing/falsy `topic`, the wrapped
`TrendAnalysisAgent` returns the input state augmented only with the
skip-marker report, without raising and without consulting the external
capability (the result is the same for every `llm`, which does not occur on
the right-hand side), and the metrics change only by `total_calls + 1` plus
the success-path bookkeeping (`execution_time`, `last_execution`) — in
particular `total_calls` is incremented, not unchanged. -/
theorem C6_skip_amended (llm : String → Except String String)
    (m : AgentMetrics) (s : StateDict) (start finish : Int) (ts : String)
    (h : (Dict.pyGet s "topic" .pynone).truthy = false) :
    execute_with_metrics {} "Trend Analysis Agent" m (trendBehavior true llm)
        s start finish ts =
      (Dict.insert s "trend_analysis_report"
        (.str "Trend analysis could not be performed."),
       { m with total_calls := m.total_calls + 1,
                execution_time := ((finish - start : Int) : Rat),
                last_execution := finish }) := by
  have hcore : trendCore true llm s =
      Dict.insert s "trend_analysis_report"
        (.str "Trend analysis could not be performed.") := by
    simp [trendCore, h]
  have hew : execute_with_timeout {} ((trendBehavior true llm) 0 s) =
      .ok (trendCore true llm s) := rfl
  have hres : (execute_safe {} (trendBehavior true llm) s).result =
      .ok (trendCore true llm s) := by
    rw [execute_safe_first_ok hew]
  rw [execute_with_metrics_of_ok hres, hcore]

/-- Witness for C6 (amended), on the empty state. -/
theorem C6_skip_amended_witness :
    (Dict.pyGet ([] : StateDict) "topic" .pynone).truthy = false ∧
    execute_with_metrics {} "Trend Analysis Agent" (initMetrics 0)
        (trendBehavior true (fun _ => .error "offline")) [] 0 0 "T" =
      (Dict.insert [] "trend_analysis_report"
        (.str "Trend analysis could not be performed."),
       { initMetrics 0 with total_calls := 1,
                            execution_time := ((0 - 0 : Int) : Rat),
                            last_execution := 0 }) := by
  refine ⟨rfl, ?_⟩
  exact C6_skip_amended (fun _ => .error "offline") (initMetrics 0)
    [] 0 0 "T" rfl

/-- **C2** (counterexample).  `SocialMediaAgent`'s success path returns the
fresh dict `{"optimized_content": ...}`: running it (through the wrapper) on
a state containing `topic` and non-empty `content` loses the `topic` key, so
key preservation does not hold for every agent. -/
theorem C2_monotonicity_counterexample :
    "topic" ∈ Dict.keys
      [("topic", .str "AI"),
       ("content", .vlist [.vdict [("content", .str "hello")]]),
       ("platforms", .vlist [])] ∧
    "topic" ∉ Dict.keys
      ((execute_with_metrics {} "Social Media Agent" (initMetrics 0)
          (socialBehavior (fun _ _ => "ok"))
          [("topic", .str "AI"),
           ("content", .vlist [.vdict [("content", .str "hello")]]),
           ("platforms", .vlist [])]
          0 0 "T").1) := by
  exact ⟨by decide, by decide⟩

/-- **C2** (amended).  Key preservation holds for the wrapper's error path
(`_handle_error` augments the input state) and for the cited
`TrendAnalysisAgent` core on all of its paths; but `SocialMediaAgent`'s
success path returns a dict whose only key is `optimized_content`,
discarding the input keys. -/
theorem C2_monotonicity_amended :
    (∀ (name : String) (s : StateDict) (e : Exn) (ts a : String),
       a ∈ Dict.keys s → a ∈ Dict.keys (handle_error name s e ts)) ∧
    (∀ (clientOK : Bool) (llm : String → Except String String)
       (s : StateDict) (a : String),
       a ∈ Dict.keys s → a ∈ Dict.keys (trendCore clientOK llm s)) ∧
    (∀ (opt : String → String → String) (s d : StateDict),
       socialCore opt s = .ok d → Dict.keys d = ["optimized_content"]) := by
  refine ⟨?_, ?_, ?_⟩
  · intro name s e ts a ha
    exact Dict.keys_insert_mem _ _ _ (Dict.keys_insert_mem _ _ _ ha)
  · intro clientOK llm s a ha
    unfold trendCore
    dsimp only
    cases hcond : (!clientOK || !(Dict.pyGet s "topic" Value.pynone).truthy)
    · simp only [hcond, Bool.false_eq_true, if_false]
      exact Dict.keys_insert_mem _ _ _ ha
    · simp only [hcond, if_true]
      exact Dict.keys_insert_mem _ _ _ ha
  · intro opt s d h
    unfold socialCore at h
    dsimp only at h
    split at h
    · exact absurd h (by simp)
    · split at h
      · rename_i cV pV piecesL platformsL heq1 heq2
        cases hm : piecesL.mapM (socialOptimizePiece opt platformsL) with
        | error e =>
            rw [hm] at h
            simp [Bind.bind, Except.bind] at h
        | ok l =>
            rw [hm] at h
            simp only [Bind.bind, Except.bind, Except.ok.injEq] at h
            rw [← h]
            rfl
      · exact absurd h (by simp)

/-- Witness for C2 (amended): concrete states for each of the three
conjuncts. -/
theorem C2_monotonicity_amended_witness :
    "topic" ∈ Dict.keys
      (handle_error "A" [("topic", .str "AI")] (.error "boom") "T") ∧
    "topic" ∈ Dict.keys
      (trendCore true (fun _ => .error "offline") [("topic", .str "AI")]) ∧
    Dict.keys
      ([("optimized_content",
         .vlist [.vdict [("original_content", .vdict [("content", .str "h")]),
                         ("platform_optimizations", .vdict [])]])] : StateDict)
      = ["optimized_content"] := by
  refine ⟨?_, ?_, ?_⟩
  · exact C2_monotonicity_amended.1 "A" [("topic", .str "AI")] (.error "boom")
      "T" "topic" (by decide)
  · exact C2_monotonicity_amended.2.1 true (fun _ => .error "offline")
      [("topic", .str "AI")] "topic" (by decide)
  · exact C2_monotonicity_amended.2.2 (fun _ _ => "ok")
      [("content", .vlist [.vdict [("content", .str "h")]]),
       ("platforms", .vlist [])] _ rfl

/-- **C10** (fresh construction).  A freshly constructed agent's metrics
start at `success_rate = 1.0`, `total_calls = 0`, `error_count = 0`, and
`get_system_status` on a newly constructed orchestrator (empty history)
reports `system_health = "healthy"` (every success rate exceeds 0.8) and
`last_workflow = None`. -/
theorem C10_fresh_status (t0 : Int) :
    (initMetrics t0).success_rate = 1 ∧
    (initMetrics t0).total_calls = 0 ∧
    (initMetrics t0).error_count = 0 ∧
    Dict.lookup (get_system_status (initOrchestrator t0)) "system_health" =
      some (.str "healthy") ∧
    Dict.lookup (get_system_status (initOrchestrator t0)) "last_workflow" =
      some .pynone := by
  refine ⟨rfl, rfl, rfl, ?_, rfl⟩
  have hh : (agentsList (initOrchestrator t0)).all
      (fun na => decide ((0.8 : Rat) < na.2.metrics.success_rate)) = true := by
    simp only [agentsList, initOrchestrator, mkAgent, initMetrics, List.all_cons,
      List.all_nil, Bool.and_true, Bool.and_eq_true, decide_eq_true_eq]
    norm_num
  simp only [get_system_status, hh, if_true]
  rfl

/-- `_execute_phases` never touches the workflow history, whatever its
outcome. -/
theorem execute_phases_history (o : Orchestrator) (cores : WorkflowCores)
    (s : StateDict) (t : Int) (ts : String) :
    (execute_phases o cores s t ts).2.workflow_history = o.workflow_history := by
  unfold execute_phases
  dsimp only
  split
  · rfl
  · split
    · rfl
    · rfl

/-- A core behaviour that echoes its input state (a stand-in for a
successful LLM-backed agent). -/
def echoCore : CoreBehavior := fun _ s => .ok s

/-- All six workflow agents echo their inputs. -/
def echoCores : WorkflowCores :=
  { trend := echoCore, strategy := echoCore, writer := echoCore,
    social := echoCore, image := echoCore, briefing := echoCore }

/-- Like `echoCores`, but the strategy agent emits a content calendar with a
non-mapping entry — which makes `_create_content_batch` raise. -/
def badCalendarCores : WorkflowCores :=
  { echoCores with
    strategy := fun _ _ => .ok [("content_calendar", .vlist [.str "Day 1 post"])] }

/-- **C7** (workflow error containment).  If the orchestrator's own
sequencing raises (here: the content-batch helper), `execute_workflow`
catches it at top level and returns — never raises, being a total
function — the `failed` WorkflowRecord carrying the error message, leaving
the history untouched. -/
theorem C7_workflow_error_contained (o : Orchestrator) (cores : WorkflowCores)
    (config : StateDict) (t : Int) (ts : String) (e : String)
    (h : (execute_phases o cores (workflowInitState config t) t ts).1 =
      .error e) :
    (execute_workflow o cores config t ts).1 =
      [("workflow_id", .str ("workflow_" ++ toString t)),
       ("status", .str "failed"), ("error", .str e),
       ("timestamp", .int t)] ∧
    (execute_workflow o cores config t ts).2.workflow_history =
      o.workflow_history := by
  have hist := execute_phases_history o cores (workflowInitState config t) t ts
  unfold execute_workflow
  dsimp only
  cases hp : execute_phases o cores (workflowInitState config t) t ts with
  | mk p1 o1 =>
      rw [hp] at h hist
      dsimp only at h hist ⊢
      subst h
      exact ⟨rfl, hist⟩

/-- Witness for C7: a concrete workflow whose strategy phase emits a
non-mapping calendar entry, making the batch helper raise. -/
theorem C7_workflow_error_contained_witness :
    (execute_workflow (initOrchestrator 0) badCalendarCores
        [("topic", .str "AI")] 0 "T").1 =
      [("workflow_id", .str ("workflow_" ++ toString (0 : Int))),
       ("status", .str "failed"),
       ("error", .str "AttributeError: object has no attribute get"),
       ("timestamp", .int 0)] ∧
    (execute_workflow (initOrchestrator 0) badCalendarCores
        [("topic", .str "AI")] 0 "T").2.workflow_history = [] := by
  exact C7_workflow_error_contained (initOrchestrator 0) badCalendarCores
    [("topic", .str "AI")] 0 "T" "AttributeError: object has no attribute get"
    rfl

/-- Did this `Except` computation succeed? -/
def isOkExcept {ε α : Type _} : Except ε α → Bool
  | .ok _ => true
  | .error _ => false

/-- The Python slice `history[-limit:]` returns the whole history when
`limit` is its length. -/
theorem historySlice_len (h : List StateDict) : historySlice h h.length = h := by
  unfold historySlice
  cases h with
  | nil => simp
  | cons a l => simp

/-- **C5** (counterexample).  A workflow run whose orchestration raises
produces a `failed` record, but that record is *not* appended to the
history: after this 1 run the history is empty and
`get_workflow_history 1` returns 0 records, refuting "every WorkflowRecord
produced — completed or failed — is appended". -/
theorem C5_history_counterexample :
    Dict.lookup ((execute_workflow (initOrchestrator 0) badCalendarCores
        [("topic", .str "AI")] 0 "T").1) "status" = some (.str "failed") ∧
    (execute_workflow (initOrchestrator 0) badCalendarCores
        [("topic", .str "AI")] 0 "T").2.workflow_history = [] ∧
    get_workflow_history ((execute_workflow (initOrchestrator 0)
        badCalendarCores [("topic", .str "AI")] 0 "T").2) 1 = [] := by
  exact ⟨rfl, rfl, rfl⟩

/-- **C5** (amended).  Only records of runs whose orchestration completes
(status `completed`) are appended, in execution order; a `failed` record is
returned but not stored.  For a history of N stored records,
`get_workflow_history N` returns exactly those N records in order (records
are immutable values in this model). -/
theorem C5_history_amended (o : Orchestrator) (cores : WorkflowCores)
    (config : StateDict) (t : Int) (ts : String) :
    (∀ phases,
       (execute_phases o cores (workflowInitState config t) t ts).1 =
         .ok phases →
       (execute_workflow o cores config t ts).2.workflow_history =
         o.workflow_history ++ [(execute_workflow o cores config t ts).1] ∧
       (execute_workflow o cores config t ts).1 =
         compile_results phases ("workflow_" ++ toString t) t) ∧
    (∀ e,
       (execute_phases o cores (workflowInitState config t) t ts).1 =
         .error e →
       (execute_workflow o cores config t ts).2.workflow_history =
         o.workflow_history) ∧
    get_workflow_history o o.workflow_history.length = o.workflow_history := by
  refine ⟨?_, ?_, historySlice_len o.workflow_history⟩
  · intro phases h
    have hist := execute_phases_history o cores (workflowInitState config t) t ts
    unfold execute_workflow
    dsimp only
    cases hp : execute_phases o cores (workflowInitState config t) t ts with
    | mk p1 o1 =>
        rw [hp] at h hist
        dsimp only at h hist ⊢
        subst h
        dsimp only
        exact ⟨by rw [hist], rfl⟩
  · intro e h
    have hist := execute_phases_history o cores (workflowInitState config t) t ts
    unfold execute_workflow
    dsimp only
    cases hp : execute_phases o cores (workflowInitState config t) t ts with
    | mk p1 o1 =>
        rw [hp] at h hist
        dsimp only at h hist ⊢
        subst h
        exact hist

/-- Witness for C5 (amended): one completing workflow run from a fresh
orchestrator stores exactly its own record, and `get_workflow_history 1`
returns it. -/
theorem C5_history_amended_witness :
    (execute_workflow (initOrchestrator 0) echoCores
        [("topic", .str "AI")] 0 "T").2.workflow_history =
      [(execute_workflow (initOrchestrator 0) echoCores
          [("topic", .str "AI")] 0 "T").1] ∧
    get_workflow_history ((execute_workflow (initOrchestrator 0) echoCores
        [("topic", .str "AI")] 0 "T").2) 1 =
      [(execute_workflow (initOrchestrator 0) echoCores
          [("topic", .str "AI")] 0 "T").1] := by
  have hok : isOkExcept (execute_phases (initOrchestrator 0) echoCores
      (workflowInitState [("topic", .str "AI")] 0) 0 "T").1 = true := rfl
  cases hp : (execute_phases (initOrchestrator 0) echoCores
      (workflowInitState [("topic", .str "AI")] 0) 0 "T").1 with
  | error e =>
      rw [hp] at hok
      simp [isOkExcept] at hok
  | ok phases =>
      have h := (C5_history_amended (initOrchestrator 0) echoCores
        [("topic", .str "AI")] 0 "T").1 phases hp
      constructor
      · rw [h.1]
        rfl
      · show historySlice ((execute_workflow (initOrchestrator 0) echoCores
            [("topic", .str "AI")] 0 "T").2.workflow_history) 1 = _
        rw [h.1]
        simp [historySlice, initOrchestrator]

/-- **C9** (code bug).  The per-item `except` handler of
`_create_content_batch` logs
`f"Failed to create content for day {day_content.get('day')}: ..."` — but
when the sub-item failure is the only one the loop can produce (a
non-mapping calendar entry raising `AttributeError` on `.get`), that very
`day_content.get('day')` raises again inside the handler, so the failure is
neither recorded per item nor contained: the batch aborts and the whole
workflow returns a `failed` record instead of continuing with the remaining
items. -/
theorem C9_batch_handler_bug :
    create_content_batch (mkAgent "Content Writer Agent" 0) echoCore
      [("content_calendar",
        .vlist [.str "Day 1 post",
                .vdict [("day", .int 2), ("type", .str "post")]])] 0 "T" =
      .error "AttributeError: object has no attribute get" ∧
    Dict.lookup ((execute_workflow (initOrchestrator 0) badCalendarCores
        [("topic", .str "AI")] 0 "T").1) "status" = some (.str "failed") ∧
    Dict.lookup ((execute_workflow (initOrchestrator 0) badCalendarCores
        [("topic", .str "AI")] 0 "T").1) "error" =
      some (.str "AttributeError: object has no attribute get") := by
  exact ⟨rfl, rfl, rfl⟩

/-! ### Lemmas for C4: any phase entry that carries agent metrics renders
with the substring `error` (from the `error_count` key), so the
`"error" not in str(phase)` test of `_compile_results` always counts the
four agent phases as unsuccessful. -/

theorem pyContains_left (t : String) {s needle : String}
    (h : pyContains s needle = true) : pyContains (s ++ t) needle = true := by
  unfold pyContains at h ⊢
  rw [string_data_append]
  exact hasSub_append_left t.data h

theorem pyContains_right (s : String) {t needle : String}
    (h : pyContains t needle = true) : pyContains (s ++ t) needle = true := by
  unfold pyContains at h ⊢
  rw [string_data_append]
  exact hasSub_append_right s.data h

/-- If some key of a dict contains the needle, so does the dict's repr. -/
theorem reprVDict_key_contains {needle k : String} {v : Value}
    (hk : pyContains k needle = true) :
    ∀ d : List (String × Value), (k, v) ∈ d →
      pyContains (reprVDict d) needle = true := by
  intro d
  induction d with
  | nil =>
      intro hmem
      simp at hmem
  | cons e rest ih =>
      intro hmem
      obtain ⟨k0, v0⟩ := e
      simp only [List.mem_cons, Prod.mk.injEq] at hmem
      rcases hmem with ⟨rfl, rfl⟩ | hmem'
      · cases rest with
        | nil =>
            show pyContains ("'" ++ k ++ "': " ++ v.pyRepr) needle = true
            exact pyContains_left _ (pyContains_left _ (pyContains_right _ hk))
        | cons e2 rest2 =>
            show pyContains
              ("'" ++ k ++ "': " ++ v.pyRepr ++ ", " ++ reprVDict (e2 :: rest2))
              needle = true
            exact pyContains_left _ (pyContains_left _ (pyContains_left _
              (pyContains_left _ (pyContains_right _ hk))))
      · cases rest with
        | nil => simp at hmem'
        | cons e2 rest2 =>
            show pyContains
              ("'" ++ k0 ++ "': " ++ v0.pyRepr ++ ", " ++ reprVDict (e2 :: rest2))
              needle = true
            exact pyContains_right _ (ih hmem')

/-- If some value of a dict has a repr containing the needle, so does the
dict's repr. -/
theorem reprVDict_val_contains {needle : String} {v : Value}
    (hv : pyContains v.pyRepr needle = true) (k : String) :
    ∀ d : List (String × Value), (k, v) ∈ d →
      pyContains (reprVDict d) needle = true := by
  intro d
  induction d with
  | nil =>
      intro hmem
      simp at hmem
  | cons e rest ih =>
      intro hmem
      obtain ⟨k0, v0⟩ := e
      simp only [List.mem_cons, Prod.mk.injEq] at hmem
      rcases hmem with ⟨rfl, rfl⟩ | hmem'
      · cases rest with
        | nil =>
            show pyContains ("'" ++ k ++ "': " ++ v.pyRepr) needle = true
            exact pyContains_right _ hv
        | cons e2 rest2 =>
            show pyContains
              ("'" ++ k ++ "': " ++ v.pyRepr ++ ", " ++ reprVDict (e2 :: rest2))
              needle = true
            exact pyContains_left _ (pyContains_left _ (pyContains_right _ hv))
      · cases rest with
        | nil => simp at hmem'
        | cons e2 rest2 =>
            show pyContains
              ("'" ++ k0 ++ "': " ++ v0.pyRepr ++ ", " ++ reprVDict (e2 :: rest2))
              needle = true
            exact pyContains_right _ (ih hmem')

theorem vdict_key_contains {needle k : String} {v : Value}
    {d : List (String × Value)} (hmem : (k, v) ∈ d)
    (hk : pyContains k needle = true) :
    pyContains (Value.pyRepr (.vdict d)) needle = true := by
  show pyContains ("\x7b" ++ reprVDict d ++ "\x7d") needle = true
  exact pyContains_left _ (pyContains_right _ (reprVDict_key_contains hk d hmem))

theorem vdict_val_contains {needle k : String} {v : Value}
    {d : List (String × Value)} (hmem : (k, v) ∈ d)
    (hv : pyContains v.pyRepr needle = true) :
    pyContains (Value.pyRepr (.vdict d)) needle = true := by
  show pyContains ("\x7b" ++ reprVDict d ++ "\x7d") needle = true
  exact pyContains_left _ (pyContains_right _ (reprVDict_val_contains hv k d hmem))

/-- `get_metrics` always renders with the substring `error` (its
`error_count` key). -/
theorem get_metrics_contains_error (name : String) (cfg : AgentConfig)
    (m : AgentMetrics) :
    pyContains (get_metrics name cfg m).pyRepr "error" = true := by
  unfold get_metrics
  exact vdict_key_contains (k := "error_count")
    (v := .int (m.error_count : Int)) (by simp) (by decide)

/-- Any `{"output": ..., "metrics": agent.get_metrics()}` phase entry fails
the `"error" not in str(phase)` test. -/
theorem phaseEntry_contains_error (out : StateDict) (a : AgentInstance) :
    phaseSuccess (phaseEntry out a) = false := by
  unfold phaseSuccess
  have h : pyContains (phaseEntry out a).pyRepr "error" = true := by
    exact vdict_val_contains
      (show ("metrics", get_metrics a.name a.cfg a.metrics) ∈ _ from by
        simp [phaseEntry])
      (get_metrics_contains_error a.name a.cfg a.metrics)
  rw [h]
  rfl

/-- Observer: the given field of the record's `summary` dict. -/
def summaryField (record : StateDict) (k : String) : Value :=
  match Dict.lookup record "summary" with
  | some (.vdict d) => Dict.pyGet d k .pynone
  | _ => .pynone

/-- Observer: how many of the record's phases pass the
`"error" not in str(phase)` test. -/
def phasesSuccessCount (record : StateDict) : Nat :=
  match Dict.lookup record "phases" with
  | some (.vdict ps) => ps.countP (fun kv => phaseSuccess kv.2)
  | _ => 0

/-- Observer: how many phases the record holds. -/
def phasesTotalCount (record : StateDict) : Nat :=
  match Dict.lookup record "phases" with
  | some (.vdict ps) => ps.length
  | _ => 0

theorem runAgent_eq (a : AgentInstance) (core : CoreBehavior) (s : StateDict)
    (t : Int) (ts : String) :
    runAgent a core s t ts =
      ((execute_with_metrics a.cfg a.name a.metrics core s t t ts).1,
       { a with metrics :=
           (execute_with_metrics a.cfg a.name a.metrics core s t t ts).2 }) := by
  rfl

/-- The agent-specific error key always ends in `_error` and therefore never
collides with the `error` key itself. -/
theorem agentErrKey_ne_error (name : String) : agentErrKey name ≠ "error" := by
  intro h
  have h2 : (agentErrKey name).data.length = ("error" : String).data.length := by
    rw [h]
  have h3 : (agentErrKey name).data.length =
      (strReplaceSpace (strLower name)).data.length + 6 := by
    show ((strReplaceSpace (strLower name)).data ++ "_error".data).length = _
    rw [List.length_append]
    rfl
  have h4 : ("error" : String).data.length = 5 := rfl
  omega

/-- The `error` info dict is retrievable from `_handle_error`'s result. -/
theorem handle_error_lookup (name : String) (s : StateDict) (e : Exn)
    (ts : String) :
    Dict.lookup (handle_error name s e ts) "error" =
      some (.vdict [("error", .str e.msg), ("agent", .str name),
                    ("timestamp", .str ts)]) := by
  unfold handle_error
  rw [Dict.lookup_insert_ne _ _ (agentErrKey_ne_error name),
      Dict.lookup_insert_self]

/-- Of the six phase entries, only the two batch entries (without embedded
metrics) can pass the success test, so at most 2 count as successful. -/
theorem phases_countP_le (n1 n2 n3 n4 n5 n6 : String)
    (out1 out2 out5 out6 : StateDict) (a1 a2 a5 a6 : AgentInstance)
    (v3 v4 : StateDict) :
    List.countP (fun kv => phaseSuccess kv.2)
      [(n1, phaseEntry out1 a1), (n2, phaseEntry out2 a2),
       (n3, .vdict v3), (n4, .vdict v4),
       (n5, phaseEntry out5 a5), (n6, phaseEntry out6 a6)] ≤ 2 := by
  simp only [List.countP_cons, List.countP_nil, phaseEntry_contains_error,
    Bool.false_eq_true, if_false]
  split_ifs <;> omega

/-- A successful-phase count of at most 2 gives a success rate below 1. -/
theorem rate_lt_one {c : Nat} (hc : c ≤ 2) :
    ((c : Nat) : Rat) / ((totalAgents : Nat) : Rat) < 1 := by
  have h7 : ((totalAgents : Nat) : Rat) = 7 := by norm_num [totalAgents]
  rw [h7, div_lt_one (by norm_num)]
  have h2 : (c : Rat) ≤ 2 := by exact_mod_cast hc
  linarith

/-- **C4** (amended).  When `_execute_phases` completes, `execute_workflow`
returns the compiled record: status `completed`, all six phases present in
execution order (even when the trend agent exhausted its retries — its
error-marked state is recorded and the remaining phases still ran), and a
`success_rate` equal to (phases passing the `"error" not in str(phase)`
test) / 7 — dividing by `len(self.agents)` = 7, not by the 6 phases; since
the four agent phases embed metrics whose `error_count` key makes that test
fail, at most 2 phases ever count as successful and the rate is always
< 1.0. -/
theorem C4_orchestrator_amended (o : Orchestrator) (cores : WorkflowCores)
    (config : StateDict) (t : Int) (ts : String)
    (phases : List (String × Value)) (o1 : Orchestrator)
    (hp : execute_phases o cores (workflowInitState config t) t ts =
      (.ok phases, o1)) :
    (execute_workflow o cores config t ts).1 =
      compile_results phases ("workflow_" ++ toString t) t ∧
    Dict.lookup (compile_results phases ("workflow_" ++ toString t) t)
      "status" = some (.str "completed") ∧
    phases.map Prod.fst =
      ["trend_analysis", "content_strategy", "content_creation",
       "visual_assets", "social_media", "client_briefing"] ∧
    phases.countP (fun kv => phaseSuccess kv.2) ≤ 2 ∧
    summaryField (compile_results phases ("workflow_" ++ toString t) t)
      "success_rate" =
      .rat (((phases.countP (fun kv => phaseSuccess kv.2) : Nat) : Rat) /
        ((totalAgents : Nat) : Rat)) ∧
    (((phases.countP (fun kv => phaseSuccess kv.2) : Nat) : Rat) /
        ((totalAgents : Nat) : Rat)) < 1 ∧
    phases.head? =
      some ("trend_analysis",
        phaseEntry
          (runAgent o.trendA cores.trend (workflowInitState config t) t ts).1
          (runAgent o.trendA cores.trend (workflowInitState config t) t ts).2) ∧
    ((∀ i, exnFails (execute_with_timeout o.trendA.cfg
        (cores.trend i (workflowInitState config t))) = true) →
      Dict.lookup
        (runAgent o.trendA cores.trend (workflowInitState config t) t ts).1
        "error" =
        some (.vdict
          [("error", .str (attemptErr o.trendA.cfg cores.trend
              (workflowInitState config t) o.trendA.cfg.retry_count).msg),
           ("agent", .str o.trendA.name), ("timestamp", .str ts)])) := by
  have hp0 := hp
  have hrec : (execute_workflow o cores config t ts).1 =
      compile_results phases ("workflow_" ++ toString t) t := by
    unfold execute_workflow
    dsimp only
    rw [hp0]
  have hcount : ∀ ps : List (String × Value),
      Dict.lookup (compile_results ps ("workflow_" ++ toString t) t) "status" =
        some (.str "completed") ∧
      summaryField (compile_results ps ("workflow_" ++ toString t) t)
        "success_rate" =
        .rat (((ps.countP (fun kv => phaseSuccess kv.2) : Nat) : Rat) /
          ((totalAgents : Nat) : Rat)) := by
    intro ps
    constructor
    · simp [compile_results, Dict.lookup]
    · simp [compile_results, summaryField, Dict.lookup, Dict.pyGet]
  have htrendpart : (∀ i, exnFails (execute_with_timeout o.trendA.cfg
        (cores.trend i (workflowInitState config t))) = true) →
      Dict.lookup
        (runAgent o.trendA cores.trend (workflowInitState config t) t ts).1
        "error" =
        some (.vdict
          [("error", .str (attemptErr o.trendA.cfg cores.trend
              (workflowInitState config t) o.trendA.cfg.retry_count).msg),
           ("agent", .str o.trendA.name), ("timestamp", .str ts)]) := by
    intro htrend
    have hres : (execute_safe o.trendA.cfg cores.trend
        (workflowInitState config t)).result =
        .error (attemptErr o.trendA.cfg cores.trend (workflowInitState config t)
          o.trendA.cfg.retry_count) := by
      unfold execute_safe
      rw [execute_safe_go_all_fail o.trendA.cfg cores.trend
        (workflowInitState config t) htrend o.trendA.cfg.retry_count 0,
        Nat.zero_add]
    have hw := @execute_with_metrics_of_error o.trendA.cfg o.trendA.name
      o.trendA.metrics cores.trend (workflowInitState config t) t t ts _ hres
    rw [runAgent_eq]
    dsimp only
    rw [hw]
    exact handle_error_lookup _ _ _ ts
  unfold execute_phases at hp
  dsimp only at hp
  split at hp
  · simp at hp
  · split at hp
    · simp at hp
    · simp only [Prod.mk.injEq, Except.ok.injEq] at hp
      obtain ⟨hph, ho1⟩ := hp
      subst hph
      refine ⟨hrec, (hcount _).1, rfl, phases_countP_le .., (hcount _).2,
        rate_lt_one (phases_countP_le ..), rfl, htrendpart⟩

/-- The observers read back exactly the compiled record's phase list. -/
theorem observers_compile (ps : List (String × Value)) (wfId : String)
    (t : Int) :
    phasesTotalCount (compile_results ps wfId t) = ps.length ∧
    phasesSuccessCount (compile_results ps wfId t) =
      ps.countP (fun kv => phaseSuccess kv.2) := by
  constructor <;>
    simp [phasesTotalCount, phasesSuccessCount, compile_results, Dict.lookup]

/-- Witness for C4 (amended): a fully-successful concrete run still reports
at most 2 successful phases out of 7 agents. -/
theorem C4_orchestrator_amended_witness :
    Dict.lookup ((execute_workflow (initOrchestrator 0) echoCores
        [("topic", .str "AI")] 0 "T").1) "status" = some (.str "completed") ∧
    phasesTotalCount ((execute_workflow (initOrchestrator 0) echoCores
        [("topic", .str "AI")] 0 "T").1) = 6 ∧
    phasesSuccessCount ((execute_workflow (initOrchestrator 0) echoCores
        [("topic", .str "AI")] 0 "T").1) ≤ 2 ∧
    summaryField ((execute_workflow (initOrchestrator 0) echoCores
        [("topic", .str "AI")] 0 "T").1) "success_rate" =
      .rat (((phasesSuccessCount ((execute_workflow (initOrchestrator 0)
          echoCores [("topic", .str "AI")] 0 "T").1) : Nat) : Rat) /
        ((totalAgents : Nat) : Rat)) ∧
    (((phasesSuccessCount ((execute_workflow (initOrchestrator 0) echoCores
        [("topic", .str "AI")] 0 "T").1) : Nat) : Rat) /
        ((totalAgents : Nat) : Rat)) < 1 := by
  have hok : isOkExcept (execute_phases (initOrchestrator 0) echoCores
      (workflowInitState [("topic", .str "AI")] 0) 0 "T").1 = true := rfl
  cases hp : execute_phases (initOrchestrator 0) echoCores
      (workflowInitState [("topic", .str "AI")] 0) 0 "T" with
  | mk p1 o1 =>
      cases p1 with
      | error e =>
          rw [hp] at hok
          simp [isOkExcept] at hok
      | ok phases =>
          have h := C4_orchestrator_amended (initOrchestrator 0) echoCores
            [("topic", .str "AI")] 0 "T" phases o1 hp
          have hobs := observers_compile phases ("workflow_" ++ toString (0 : Int)) 0
          have hlen : phases.length = 6 := by
            have := congrArg List.length h.2.2.1
            simpa using this
          refine ⟨?_, ?_, ?_, ?_, ?_⟩
          · rw [h.1]
            exact h.2.1
          · rw [h.1, hobs.1, hlen]
          · rw [h.1, hobs.2]
            exact h.2.2.2.1
          · rw [h.1, hobs.2]
            exact h.2.2.2.2.1
          · rw [h.1, hobs.2]
            exact h.2.2.2.2.2.1

set_option maxRecDepth 100000 in
/-- **C4** (counterexample).  In a concrete fully-successful run the record
stores `success_rate = 2/7` (2 substring-successful phases over
`len(self.agents) = 7`), while the claim's formula — phases without an
error marker over the 6 phases — would give `2/6`; the two are different,
so the claimed formula is not the one the code computes. -/
theorem C4_success_rate_counterexample :
    summaryField ((execute_workflow (initOrchestrator 0) echoCores
        [("topic", .str "AI")] 0 "T").1) "success_rate" =
      .rat (((2 : Nat) : Rat) / ((7 : Nat) : Rat)) ∧
    phasesSuccessCount ((execute_workflow (initOrchestrator 0) echoCores
        [("topic", .str "AI")] 0 "T").1) = 2 ∧
    phasesTotalCount ((execute_workflow (initOrchestrator 0) echoCores
        [("topic", .str "AI")] 0 "T").1) = 6 ∧
    ¬ (((2 : Nat) : Rat) / ((7 : Nat) : Rat) =
        ((2 : Nat) : Rat) / ((6 : Nat) : Rat)) := by
  refine ⟨rfl, rfl, rfl, by push_cast; norm_num⟩

end Marketing
